import Mathlib

/-
  Verification development for the follow-up concierge pipeline
  (ingress -> ingest -> schedule -> execute -> deliver).

  The relational store is embedded as lists of rows, timestamps as integers
  (UTC instants in milliseconds), identifiers as naturals, and the status
  columns as closed sum types mirroring the string enums of the code.
  External calls (the extractor, the drafter, the send APIs, date
  formatting) are parameters of the embedded worker functions, so the
  functions describe exactly the store and queue writes the code performs.
-/

/- ── Status enums (the string enums of src/shared/types.ts and the schema) ── -/

inductive InboundStatus
  | received
  | processed
deriving DecidableEq, Repr

inductive TaskStatus
  | pending
  | needs_clarification
  | due
  | executing
  | sending
  | done
  | failed
deriving DecidableEq, Repr

inductive OutboxStatus
  | queued
  | sending
  | sent
  | failed
deriving DecidableEq, Repr

inductive ActionType
  | remind
  | remind_and_draft
  | send
deriving DecidableEq, Repr

inductive EventType
  | created
  | clarification_sent
  | scheduled
  | due
  | executing
  | draft_generated
  | sending
  | sent
  | done
  | failed
  | retried
deriving DecidableEq, Repr

/- ── Row types ── -/

structure UserRow where
  userId : Nat
  primaryEmail : Option String
  whatsappNumber : Option String
  displayName : String
deriving DecidableEq, Repr

structure PrefRow where
  userId : Nat
  timezone : String
  tone : String
  defaultAction : ActionType
  fallbackChannel : String
deriving DecidableEq, Repr

structure InboundRow where
  inboundId : Nat
  userId : Nat
  channel : String
  providerMessageId : String
  idempotencyKey : String
  rawTextRedacted : Option String
  status : InboundStatus
deriving DecidableEq, Repr

structure TaskRow where
  taskId : Nat
  userId : Nat
  sourceInboundId : Nat
  dueAt : Option Int
  actionType : ActionType
  contactHint : Option String
  context : Option String
  status : TaskStatus
  attemptCount : Nat
  lastAttemptAt : Option Int
  updatedAt : Int
deriving DecidableEq, Repr

/-- The structured outbox payload. The field named to in the code is rendered
toAddr here because to is a reserved word in Lean. -/
structure OutboxPayload where
  toAddr : String
  subject : Option String
  body : String
deriving DecidableEq, Repr

structure OutboxRow where
  outboxId : Nat
  taskId : Option Nat
  userId : Nat
  channel : String
  payload : OutboxPayload
  status : OutboxStatus
  attempts : Nat
  nextRetryAt : Int
  updatedAt : Int
deriving DecidableEq, Repr

/-- Payload of a task event row, as a closed set of per-event records
(the code passes small object literals to recordTaskEvent). -/
inductive EventPayload
  | empty
  | source (s : String)
  | question (q : String)
  | scheduledAt (d : Option Int)
  | draft (subject body : String)
  | reason (r : String)
deriving DecidableEq, Repr

structure EventRow where
  taskId : Nat
  userId : Nat
  eventType : EventType
  payload : EventPayload
deriving DecidableEq, Repr

/- ── Store and queue ── -/

structure Store where
  users : List UserRow
  prefs : List PrefRow
  inbound : List InboundRow
  tasks : List TaskRow
  outbox : List OutboxRow
  events : List EventRow
deriving DecidableEq, Repr

inductive JobPayload
  | ingest (inboundId userId : Nat)
  | execute (taskId : Nat)
deriving DecidableEq, Repr

structure JobEntry where
  jobId : String
  payload : JobPayload
deriving DecidableEq, Repr

abbrev Queue := List JobEntry

/-- BullMQ queue add with a client-supplied job identity: adding a job whose
identity is already present is a no-op (queue-level deduplication). -/
def addJob (q : Queue) (id : String) (p : JobPayload) : Queue :=
  if q.any (fun j => j.jobId = id) then q else q ++ [⟨id, p⟩]

/-- recordTaskEvent from src/services/task-events.ts (src/unnamed/part_006):
a prisma.taskEvent.create wrapped in a try/catch whose catch branch only logs,
so an event write never propagates an error to its caller. The event table
has no uniqueness constraint the insert could trip, so in the
no-infrastructure-fault semantics used for every store call of this
embedding the insert succeeds and the function is a total append of one
event row; the swallowed catch branch is the behavior under an
infrastructure fault (store down), which the shallow embedding does not
model for any call. -/
def recordTaskEvent (s : Store) (taskId userId : Nat) (e : EventType)
    (p : EventPayload) : Store :=
  { s with events := s.events ++ [⟨taskId, userId, e, p⟩] }

/-- Prisma update by primary key: rewrite the row whose id matches. -/
def updateTaskRow (l : List TaskRow) (id : Nat) (f : TaskRow → TaskRow) : List TaskRow :=
  l.map (fun t => if t.taskId = id then f t else t)

def updateOutboxRow (l : List OutboxRow) (id : Nat) (f : OutboxRow → OutboxRow) : List OutboxRow :=
  l.map (fun r => if r.outboxId = id then f r else r)

def updateInboundRow (l : List InboundRow) (id : Nat) (f : InboundRow → InboundRow) : List InboundRow :=
  l.map (fun m => if m.inboundId = id then f m else m)

/- ── Outbox sender (src/src/workers/outbox.worker.ts) ── -/

/-- computeNextRetry from outbox.worker.ts:
delayMs = Math.min(30000 * Math.pow(2, attempts), 600000); Date.now() + delayMs. -/
def computeNextRetry (attempts : Nat) (nowMs : Int) : Int :=
  nowMs + min ((30000 : Int) * 2 ^ attempts) 600000

/-- The row projection RETURNING of the outbox claim query. -/
structure ClaimedMsg where
  outboxId : Nat
  taskId : Option Nat
  userId : Nat
  channel : String
  payload : OutboxPayload
  attempts : Nat
deriving DecidableEq, Repr

/-- The WHERE clause of the claim query: status = queued AND next_retry_at <= now. -/
def outboxEligible (now : Int) (r : OutboxRow) : Bool :=
  decide (r.status = OutboxStatus.queued) && decide (r.nextRetryAt ≤ now)

/-- Ordering of the claim query: ORDER BY next_retry_at ASC. -/
def retryLe (a b : OutboxRow) : Prop :=
  a.nextRetryAt ≤ b.nextRetryAt

instance : DecidableRel retryLe := fun a b => inferInstanceAs (Decidable (a.nextRetryAt ≤ b.nextRetryAt))

def claimedProj (r : OutboxRow) : ClaimedMsg :=
  ⟨r.outboxId, r.taskId, r.userId, r.channel, r.payload, r.attempts⟩

/-- The atomic claim statement of pollOutbox: select up to 20 rows with
status queued and next_retry_at <= now, ordered by next_retry_at ascending,
set them to sending with updated_at = now, and return their projection.
The SQL NOW() of the SET clause is modelled as the poll instant now. -/
def claimOutbox (s : Store) (now : Int) : List ClaimedMsg × Store :=
  let eligible := s.outbox.filter (outboxEligible now)
  let batch := (List.insertionSort retryLe eligible).take 20
  let ids := batch.map (fun r => r.outboxId)
  let outbox' := s.outbox.map (fun r =>
    if ids.contains r.outboxId then
      { r with status := OutboxStatus.sending, updatedAt := now }
    else r)
  (batch.map claimedProj, { s with outbox := outbox' })

/-- The try block of the per-message loop: the email send API is invoked only
for channel email, the WhatsApp send API only for channel whatsapp; any other
channel value invokes no send API at all, so the try block cannot throw. -/
def sendAttempt (emailResult waResult : Except String Unit) (channel : String) :
    Except String Unit :=
  if channel = "email" then emailResult
  else if channel = "whatsapp" then waResult
  else Except.ok ()

/-- The body of the for loop of pollOutbox for one claimed message, given the
two send APIs as functions from the payload to a result (an error value stands
for a thrown exception whose message is the carried string). -/
def handleOutboxMsg (maxAttempts : Nat)
    (sendEmailApi sendWaApi : OutboxPayload → Except String Unit)
    (now : Int) (s : Store) (msg : ClaimedMsg) : Store :=
  match sendAttempt (sendEmailApi msg.payload) (sendWaApi msg.payload) msg.channel with
  | Except.ok _ =>
    let ob1 := updateOutboxRow s.outbox msg.outboxId
      (fun r => { r with status := OutboxStatus.sent, attempts := msg.attempts + 1 })
    let s1 := { s with outbox := ob1 }
    match msg.taskId with
    | some tid =>
      let tk2 := updateTaskRow s1.tasks tid (fun t => { t with status := TaskStatus.done })
      let s2 := { s1 with tasks := tk2 }
      let s3 := recordTaskEvent s2 tid msg.userId EventType.sent EventPayload.empty
      recordTaskEvent s3 tid msg.userId EventType.done EventPayload.empty
    | none => s1
  | Except.error e =>
    let newAttempts := msg.attempts + 1
    if maxAttempts ≤ newAttempts then
      let ob1 := updateOutboxRow s.outbox msg.outboxId
        (fun r => { r with status := OutboxStatus.failed, attempts := newAttempts })
      let s1 := { s with outbox := ob1 }
      match msg.taskId with
      | some tid =>
        let tk2 := updateTaskRow s1.tasks tid (fun t => { t with status := TaskStatus.failed })
        let s2 := { s1 with tasks := tk2 }
        recordTaskEvent s2 tid msg.userId EventType.failed (EventPayload.reason e)
      | none => s1
    else
      let ob1 := updateOutboxRow s.outbox msg.outboxId
        (fun r => { r with status := OutboxStatus.queued, attempts := newAttempts, nextRetryAt := computeNextRetry newAttempts now })
      { s with outbox := ob1 }

/-- One poll of the outbox sender: claim a batch, then handle each message. -/
def pollOutbox (maxAttempts : Nat)
    (sendEmailApi sendWaApi : OutboxPayload → Except String Unit)
    (now : Int) (s : Store) : Store :=
  let r := claimOutbox s now
  r.1.foldl (handleOutboxMsg maxAttempts sendEmailApi sendWaApi now) r.2

/- ── PII redaction (src/src/shared/pii.ts) ──
   The three JavaScript regexes are embedded as matchers over character lists.
   A matcher takes the character preceding the current position (for the word
   boundary assertions) and the remaining input, and returns the length of the
   match the JavaScript engine would produce at this position, if any.
   Backtracking order (leftmost position, greedy quantifiers shrinking one
   step at a time) follows the JavaScript semantics. -/

def isDigitCh (c : Char) : Bool := '0' ≤ c && c ≤ '9'

def isAlphaCh (c : Char) : Bool := ('a' ≤ c && c ≤ 'z') || ('A' ≤ c && c ≤ 'Z')

/-- JavaScript word character for the boundary assertion: [A-Za-z0-9_]. -/
def isWordCh (c : Char) : Bool := isAlphaCh c || isDigitCh c || c == '_'

def isWordOpt : Option Char → Bool
  | some c => isWordCh c
  | none => false

/-- A position is a word boundary iff exactly one of its two sides is a word
character, where the outside of the string counts as non-word. -/
def boundaryAt (l r : Option Char) : Bool := isWordOpt l != isWordOpt r

/-- SSN_PATTERN from pii.ts: three digits, hyphen, two digits, hyphen, four
digits, delimited by word boundaries. A match always has length 11. -/
def matchSSN (prev : Option Char) (l : List Char) : Option Nat :=
  match l with
  | a :: b :: c :: h1 :: d :: e :: h2 :: f :: g :: i :: j :: rest =>
    if boundaryAt prev (some a) && isDigitCh a && isDigitCh b && isDigitCh c
        && (h1 == '-') && isDigitCh d && isDigitCh e && (h2 == '-')
        && isDigitCh f && isDigitCh g && isDigitCh i && isDigitCh j
        && boundaryAt (some j) rest.head? then
      some 11
    else none
  | _ => none

def take4Digits : List Char → Option (List Char)
  | a :: b :: c :: d :: rest =>
    if isDigitCh a && isDigitCh b && isDigitCh c && isDigitCh d then some rest else none
  | _ => none

/-- One optional separator of CREDIT_CARD_PATTERN. Taking a present separator
is forced: the next pattern item is a digit, and a separator is not a digit, so
declining a present separator can never extend to a match. -/
def optSep : List Char → Nat × List Char
  | c :: rest => if c == '-' || c == ' ' then (1, rest) else (0, c :: rest)
  | [] => (0, [])

/-- CREDIT_CARD_PATTERN from pii.ts: four groups of four digits with an
optional hyphen or space between consecutive groups, delimited by word
boundaries. -/
def matchCC (prev : Option Char) (l : List Char) : Option Nat :=
  if boundaryAt prev l.head? then
    match take4Digits l with
    | none => none
    | some r1 =>
      let s1 := optSep r1
      match take4Digits s1.2 with
      | none => none
      | some r2 =>
        let s2 := optSep r2
        match take4Digits s2.2 with
        | none => none
        | some r3 =>
          let s3 := optSep r3
          match take4Digits s3.2 with
          | none => none
          | some r4 =>
            if !(isWordOpt r4.head?) then some (16 + s1.1 + s2.1 + s3.1) else none
  else none

/-- Character class of the local part of EMAIL_IN_BODY_PATTERN. -/
def localCh (c : Char) : Bool :=
  isAlphaCh c || isDigitCh c || c == '.' || c == '_' || c == '%' || c == '+' || c == '-'

/-- Character class of the domain part. -/
def domainCh (c : Char) : Bool := isAlphaCh c || isDigitCh c || c == '.' || c == '-'

/-- Character class of the final group [A-Z|a-z]: letters and a literal pipe
(the pattern spells the classic A-Z pipe a-z typo, which the embedding keeps). -/
def tldCh (c : Char) : Bool := isAlphaCh c || c == '|'

/-- Greedy backtracking of the trailing group with its two-or-more quantifier
and closing word boundary: try the longest prefix of the maximal class run
first and shrink. trun is the maximal run, afterRun the character after it. -/
def tldScan (trun : List Char) (afterRun : Option Char) : Nat → Option Nat
  | 0 => none
  | j + 1 =>
    if j + 1 < 2 then none
    else
      match trun.get? j with
      | none => tldScan trun afterRun j
      | some last =>
        let next := match trun.get? (j + 1) with
          | some c => some c
          | none => afterRun
        if boundaryAt (some last) next then some (j + 1)
        else tldScan trun afterRun j

/-- Greedy backtracking of the one-or-more domain run followed by the literal
dot: try consuming the whole maximal domain-class run first and shrink one
character at a time, as the JavaScript engine does. rest2 is the input after
the at sign; the fuel starts at the maximal run length, so every tried
consumption stays inside the domain-class run. -/
def domScan (rest2 : List Char) : Nat → Option Nat
  | 0 => none
  | c + 1 =>
    match rest2.get? (c + 1) with
    | some ch =>
      if ch == '.' then
        let rest3 := rest2.drop (c + 2)
        let trun := rest3.takeWhile tldCh
        match tldScan trun (rest3.get? trun.length) trun.length with
        | some j => some ((c + 1) + 1 + j)
        | none => domScan rest2 c
      else domScan rest2 c
    | none => domScan rest2 c

/-- EMAIL_IN_BODY_PATTERN from pii.ts. The local-part class excludes the at
sign, so its greedy run never backtracks; the domain and trailing group
backtrack via domScan and tldScan. -/
def matchEmail (prev : Option Char) (l : List Char) : Option Nat :=
  if boundaryAt prev l.head? then
    let lrun := l.takeWhile localCh
    if lrun.isEmpty then none
    else
      match l.drop lrun.length with
      | '@' :: rest2 =>
        let drun := rest2.takeWhile domainCh
        match domScan rest2 drun.length with
        | some d => some (lrun.length + 1 + d)
        | none => none
      | _ => none
  else none

/-- String.prototype.replace with a global regex: scan left to right; at each
position emit the replacement and jump over the match if the regex matches
here, otherwise keep the character. Matches are found against the original
characters, so the previous-character context fed to the boundary assertions
is the last original character consumed. The fuel argument is the remaining
input length; every step consumes at least one character for the matchers
used here, so the fuel never runs out. -/
def scanRepl (m : Option Char → List Char → Option Nat) (r : List Char) :
    Nat → Option Char → List Char → List Char
  | 0, _, l => l
  | _ + 1, _, [] => []
  | fuel + 1, prev, c :: cs =>
    match m prev (c :: cs) with
    | none => c :: scanRepl m r fuel (some c) cs
    | some n => r ++ scanRepl m r fuel (((c :: cs).take n).getLast?) ((c :: cs).drop n)

def replaceAllM (m : Option Char → List Char → Option Nat) (r : List Char)
    (l : List Char) : List Char :=
  scanRepl m r l.length none l

/-- redactPii from pii.ts: the three global replaces applied in source order
(SSN, then credit card, then email). -/
def redactPii (s : String) : String :=
  String.mk (replaceAllM matchEmail "[EMAIL_REDACTED]".data
    (replaceAllM matchCC "[CC_REDACTED]".data
      (replaceAllM matchSSN "[SSN_REDACTED]".data s.data)))

/- ── Scheduler (scheduler.worker.ts) ── -/

/-- The WHERE clause of the scheduler claim: status = pending AND due_at <= now.
A NULL due_at makes the SQL comparison non-true, so such rows are never
selected. -/
def taskEligible (now : Int) (t : TaskRow) : Bool :=
  decide (t.status = TaskStatus.pending) &&
    (match t.dueAt with
     | some d => decide (d ≤ now)
     | none => false)

/-- Ordering of the scheduler claim: ORDER BY due_at ASC (every selected row
has a non-null due_at). -/
def dueLe (a b : TaskRow) : Prop :=
  a.dueAt.getD 0 ≤ b.dueAt.getD 0

instance : DecidableRel dueLe := fun a b =>
  inferInstanceAs (Decidable (a.dueAt.getD 0 ≤ b.dueAt.getD 0))

instance : IsTotal TaskRow dueLe := ⟨fun a b => le_total (a.dueAt.getD 0) (b.dueAt.getD 0)⟩

instance : IsTrans TaskRow dueLe := ⟨fun _ _ _ hab hbc => le_trans hab hbc⟩

/-- One scheduler tick: atomically claim up to 100 pending tasks whose due_at
has passed (ordered by due_at ascending), set them to due with updated_at =
now, and return their (task_id, user_id); then, for each returned row, record
a due event and enqueue an execute job with job identity exec:task_id.
The SQL NOW() of the SET clause is modelled as the tick instant now. -/
def tick (s : Store) (q : Queue) (now : Int) : List (Nat × Nat) × Store × Queue :=
  let eligible := s.tasks.filter (taskEligible now)
  let batch := (List.insertionSort dueLe eligible).take 100
  let ids := batch.map (fun t => t.taskId)
  let tasks' := s.tasks.map (fun t =>
    if ids.contains t.taskId then { t with status := TaskStatus.due, updatedAt := now } else t)
  let returned := batch.map (fun t => (t.taskId, t.userId))
  let s1 := { s with tasks := tasks' }
  let final := returned.foldl
    (fun (acc : Store × Queue) (p : Nat × Nat) =>
      (recordTaskEvent acc.1 p.1 p.2 EventType.due EventPayload.empty,
       addJob acc.2 ("exec:" ++ toString p.1) (JobPayload.execute p.1)))
    (s1, q)
  (returned, final.1, final.2)

/- ── Ingest worker (src/src/workers/ingest.worker.ts) ── -/

/-- The extractor output (src/shared/types.ts ExtractionResult). Parsing of
the ISO-8601 instant due_at_iso is abstracted: the field carries the instant
it denotes, and a JavaScript-falsy value (null or empty string) is none.
action_type is optional because the raw JSON is not validated and the code
guards it with a truthiness default. -/
structure ExtractionResult where
  needs_clarification : Bool
  clarifying_question : String
  due_at_iso : Option Int
  action_type : Option ActionType
  contact_hint : String
  context : String
deriving DecidableEq, Repr

inductive DbError
  | uniqueViolation
deriving DecidableEq, Repr

/-- Modelled from the spec: prisma/schema.prisma is listed in the repository
layout but is not under src. Section 3 states the Task invariant of at most
one task per inbound, enforced by a unique source_inbound_id column; the
insert therefore fails with a unique violation when a row with the same
source_inbound_id already exists. -/
def createTask (s : Store) (t : TaskRow) : Except DbError Store :=
  if s.tasks.any (fun u => u.sourceInboundId = t.sourceInboundId) then
    Except.error DbError.uniqueViolation
  else
    Except.ok { s with tasks := s.tasks ++ [t] }

/-- Outbox insert: a plain append (the outbox has no unique business key). -/
def createOutbox (s : Store) (r : OutboxRow) : Store :=
  { s with outbox := s.outbox ++ [r] }

/-- The JavaScript truthiness guard value-or-null used for the extracted
strings: an empty string is stored as NULL. -/
def emptyToNone (s : String) : Option String :=
  if s = "" then none else some s

def markInboundProcessed (s : Store) (id : Nat) : Store :=
  let inbound' := updateInboundRow s.inbound id (fun m => { m with status := InboundStatus.processed })
  { s with inbound := inbound' }

/-- processIngest. The extractor call is external, so the ExtractionResult is
a parameter; the locale date formatting of the confirmation body is the
parameter fmtDate; newTaskId and newOutboxId are the identifiers the store
assigns to the created rows; now is the wall-clock instant. The result is an
exception monad whose error carries the store at the moment of the throw,
because the handler does not run inside a transaction and a thrown error
fails the job (queue retry) while keeping earlier writes. -/
def processIngest (s : Store) (inboundId userId : Nat)
    (extraction : ExtractionResult) (fmtDate : Int → String)
    (newTaskId newOutboxId : Nat) (now : Int) : Except (DbError × Store) Store :=
  match s.inbound.find? (fun m => m.inboundId = inboundId) with
  | none => Except.ok s
  | some inboundRow =>
    match s.users.find? (fun u => u.userId = userId) with
    | none => Except.ok s
    | some user =>
      let prefs := s.prefs.find? (fun p => p.userId = userId)
      let defaultAction := (prefs.map (fun p => p.defaultAction)).getD ActionType.remind_and_draft
      let _safeText := redactPii (inboundRow.rawTextRedacted.getD "")
      let channel := inboundRow.channel
      let recipientAddress :=
        if channel = "email" then user.primaryEmail.getD "" else user.whatsappNumber.getD ""
      if extraction.needs_clarification then
        match createTask s { taskId := newTaskId, userId := userId, sourceInboundId := inboundId, dueAt := none, actionType := extraction.action_type.getD defaultAction, contactHint := emptyToNone extraction.contact_hint, context := emptyToNone extraction.context, status := TaskStatus.needs_clarification, attemptCount := 0, lastAttemptAt := none, updatedAt := now } with
        | Except.error e => Except.error (e, s)
        | Except.ok s1 =>
          let s2 := recordTaskEvent s1 newTaskId userId EventType.created (EventPayload.source "ingest")
          let s3 := recordTaskEvent s2 newTaskId userId EventType.clarification_sent (EventPayload.question extraction.clarifying_question)
          let s4 := createOutbox s3 { outboxId := newOutboxId, taskId := some newTaskId, userId := userId, channel := channel, payload := { toAddr := recipientAddress, subject := some "Quick question about your follow-up", body := extraction.clarifying_question }, status := OutboxStatus.queued, attempts := 0, nextRetryAt := now, updatedAt := now }
          Except.ok (markInboundProcessed s4 inboundId)
      else
        let dueAt := extraction.due_at_iso
        match createTask s { taskId := newTaskId, userId := userId, sourceInboundId := inboundId, dueAt := dueAt, actionType := extraction.action_type.getD defaultAction, contactHint := emptyToNone extraction.contact_hint, context := emptyToNone extraction.context, status := TaskStatus.pending, attemptCount := 0, lastAttemptAt := none, updatedAt := now } with
        | Except.error e => Except.error (e, s)
        | Except.ok s1 =>
          let s2 := recordTaskEvent s1 newTaskId userId EventType.created (EventPayload.source "ingest")
          let s3 := recordTaskEvent s2 newTaskId userId EventType.scheduled (EventPayload.scheduledAt dueAt)
          let friendlyDate := match dueAt with
            | some d => fmtDate d
            | none => "the scheduled time"
          let actionLabel :=
            if extraction.action_type = some ActionType.remind then "I'll remind you"
            else if extraction.action_type = some ActionType.send then "I'll send it for you"
            else "I'll remind you and prepare a draft"
          let aboutWhat := if extraction.contact_hint = "" then "your follow-up" else extraction.contact_hint
          let confirmBody := "Got it! " ++ actionLabel ++ " on " ++ friendlyDate ++ " about " ++ aboutWhat ++ "."
          let s4 := createOutbox s3 { outboxId := newOutboxId, taskId := some newTaskId, userId := userId, channel := channel, payload := { toAddr := recipientAddress, subject := some "Follow-up scheduled", body := confirmBody }, status := OutboxStatus.queued, attempts := 0, nextRetryAt := now, updatedAt := now }
          Except.ok (markInboundProcessed s4 inboundId)

/-- The store carried by either side of a worker result (the writes that are
durable after the handler returned or threw). -/
def ingestResultStore (r : Except (DbError × Store) Store) : Store :=
  match r with
  | Except.ok s => s
  | Except.error e => e.2

/- ── Executor worker (src/src/workers/executor.worker.ts) ── -/

structure DraftResult where
  subject : String
  body : String
deriving DecidableEq, Repr

inductive ExecError
  | userMissing
  | draftFailed (message : String)
deriving DecidableEq, Repr

/-- processExecute. The drafter call is external, so its outcome is the
parameter draftResult (an error stands for a thrown exception); newOutboxId
is the identifier of the created outbox row. A missing task or a task whose
status is not due returns normally without touching the store. As in
processIngest, an error result carries the store at the moment of the throw. -/
def processExecute (s : Store) (taskId : Nat)
    (draftResult : Except String DraftResult) (now : Int) (newOutboxId : Nat) :
    Except (ExecError × Store) Store :=
  match s.tasks.find? (fun t => t.taskId = taskId) with
  | none => Except.ok s
  | some task =>
    if task.status ≠ TaskStatus.due then Except.ok s
    else
      let tk1 := updateTaskRow s.tasks taskId
        (fun t => { t with status := TaskStatus.executing, lastAttemptAt := some now, attemptCount := t.attemptCount + 1 })
      let s1 := { s with tasks := tk1 }
      let s2 := recordTaskEvent s1 taskId task.userId EventType.executing EventPayload.empty
      match s.users.find? (fun u => u.userId = task.userId) with
      | none => Except.error (ExecError.userMissing, s2)
      | some user =>
        let prefs := s.prefs.find? (fun p => p.userId = task.userId)
        let tone := (prefs.map (fun p => p.tone)).getD "friendly"
        let fallbackChannel := (prefs.map (fun p => p.fallbackChannel)).getD "email"
        let inboundRow := s.inbound.find? (fun m => m.inboundId = task.sourceInboundId)
        let channel := (inboundRow.map (fun m => m.channel)).getD fallbackChannel
        let recipient :=
          if channel = "email" then user.primaryEmail.getD "" else user.whatsappNumber.getD ""
        let _tone := tone
        let finish := fun (sAcc : Store) (subject body : String) =>
          let s4 := createOutbox sAcc { outboxId := newOutboxId, taskId := some taskId, userId := task.userId, channel := channel, payload := { toAddr := recipient, subject := some subject, body := body }, status := OutboxStatus.queued, attempts := 0, nextRetryAt := now, updatedAt := now }
          let tk5 := updateTaskRow s4.tasks taskId (fun t => { t with status := TaskStatus.sending })
          let s5 := { s4 with tasks := tk5 }
          Except.ok (recordTaskEvent s5 taskId task.userId EventType.sending EventPayload.empty)
        if task.actionType = ActionType.remind then
          let subject := "Reminder: Follow up with " ++ task.contactHint.getD "your contact"
          let withPart := match task.contactHint with
            | some c => " with " ++ c
            | none => ""
          let aboutPart := match task.context with
            | some c => " about " ++ c
            | none => ""
          let body := "Hi " ++ user.displayName ++ ", this is your reminder to follow up" ++ withPart ++ aboutPart ++ "."
          finish s2 subject body
        else
          match draftResult with
          | Except.error e => Except.error (ExecError.draftFailed e, s2)
          | Except.ok draft =>
            let s3 := recordTaskEvent s2 taskId task.userId EventType.draft_generated (EventPayload.draft draft.subject draft.body)
            let withPart := match task.contactHint with
              | some c => " with " ++ c
              | none => ""
            let body :=
              if task.actionType = ActionType.send then draft.body
              else "Hi " ++ user.displayName ++ ", it's time to follow up" ++ withPart ++ ". Here's a draft you can use:\n\n---\nSubject: " ++ draft.subject ++ "\n\n" ++ draft.body ++ "\n---\n\nFeel free to edit and send!"
            finish s3 draft.subject body

def execResultStore (r : Except (ExecError × Store) Store) : Store :=
  match r with
  | Except.ok s => s
  | Except.error e => e.2

/- ── Ingress email webhook (src/ingress/routes/email.ts) ── -/

/-- A parsed, signature-verified email webhook body (the zod schema and HMAC
check are the first two steps of the route; the claims quantify over payloads
that passed them). -/
structure EmailPayload where
  messageId : String
  fromAddr : String
  toField : String
  subject : String
  textBody : String
  timestamp : String
deriving DecidableEq, Repr

inductive WebhookResponse
  | ignored
  | duplicate
  | accepted (inboundId : Nat)
deriving DecidableEq, Repr

/-- Modelled from the spec: prisma/schema.prisma is not under src; the
InboundMessage idempotency_key column is UNIQUE (section 3), so the insert
fails with a unique violation when the key is already present. -/
def insertInbound (s : Store) (row : InboundRow) : Except DbError Store :=
  if s.inbound.any (fun m => m.idempotencyKey = row.idempotencyKey) then
    Except.error DbError.uniqueViolation
  else
    Except.ok { s with inbound := s.inbound ++ [row] }

inductive EmailPhase1
  | ignored
  | duplicate
  | proceed (user : UserRow) (key : String)
deriving DecidableEq, Repr

/-- Steps 3 and 4 of the email route up to the idempotency lookup: resolve
the user by primary email, build the idempotency key, look the key up. -/
def emailPhase1 (s : Store) (p : EmailPayload) : EmailPhase1 :=
  match s.users.find? (fun u => u.primaryEmail = some p.fromAddr) with
  | none => EmailPhase1.ignored
  | some user =>
    let key := toString user.userId ++ ":" ++ p.messageId
    match s.inbound.find? (fun m => m.idempotencyKey = key) with
    | some _ => EmailPhase1.duplicate
    | none => EmailPhase1.proceed user key

/-- Steps 5 and 6 of the email route after the lookup: insert the inbound row
and enqueue the ingest job with job identity equal to the idempotency key.
The insert is a separate database call from the lookup of emailPhase1, so a
row with the same key may have appeared in between; the code has no catch
around the insert, so a unique violation propagates (the global Fastify error
handler then answers 500, not a duplicate response). -/
def emailPhase2 (s : Store) (q : Queue) (user : UserRow) (key : String)
    (p : EmailPayload) (newInboundId : Nat) :
    Except DbError (WebhookResponse × Store × Queue) :=
  match insertInbound s { inboundId := newInboundId, userId := user.userId, channel := "email", providerMessageId := p.messageId, idempotencyKey := key, rawTextRedacted := some (p.subject ++ "\n" ++ p.textBody), status := InboundStatus.received } with
  | Except.error e => Except.error e
  | Except.ok s1 =>
    let q1 := addJob q key (JobPayload.ingest newInboundId user.userId)
    Except.ok (WebhookResponse.accepted newInboundId, s1, q1)

/-- The whole email webhook handler for one request executed without
interleaving: phase 1 then phase 2 against the same store. -/
def processEmailWebhook (s : Store) (q : Queue) (p : EmailPayload)
    (newInboundId : Nat) : Except DbError (WebhookResponse × Store × Queue) :=
  match emailPhase1 s p with
  | EmailPhase1.ignored => Except.ok (WebhookResponse.ignored, s, q)
  | EmailPhase1.duplicate => Except.ok (WebhookResponse.duplicate, s, q)
  | EmailPhase1.proceed user key => emailPhase2 s q user key p newInboundId

/- ── Theorems ── -/

/-- C4: for every failure count n with 1 <= n < MAX_ATTEMPTS, the retry branch
of the outbox sender schedules the next attempt after exactly
min(30000 * 2 ^ n, 600000) milliseconds; the delays after failures 1, 2, 3, 4
are 60000, 120000, 240000, 480000 ms, and the delay never exceeds 600000 ms. -/
theorem outbox_backoff_schedule (maxAttempts n : Nat) (nowMs : Int)
    (sendEmailApi sendWaApi : OutboxPayload → Except String Unit)
    (s : Store) (msg : ClaimedMsg) (e : String)
    (hfail : sendAttempt (sendEmailApi msg.payload) (sendWaApi msg.payload) msg.channel = Except.error e)
    (hn : msg.attempts + 1 = n) (hlt : n < maxAttempts) :
    (handleOutboxMsg maxAttempts sendEmailApi sendWaApi nowMs s msg =
      { s with outbox := updateOutboxRow s.outbox msg.outboxId (fun r => { r with status := OutboxStatus.queued, attempts := n, nextRetryAt := nowMs + min ((30000 : Int) * 2 ^ n) 600000 }) })
    ∧ computeNextRetry 1 nowMs - nowMs = 60000
    ∧ computeNextRetry 2 nowMs - nowMs = 120000
    ∧ computeNextRetry 3 nowMs - nowMs = 240000
    ∧ computeNextRetry 4 nowMs - nowMs = 480000
    ∧ (∀ k : Nat, computeNextRetry k nowMs - nowMs ≤ 600000) := by
  refine ⟨?_, ?_, ?_, ?_, ?_, ?_⟩
  · have hnot : ¬ maxAttempts ≤ msg.attempts + 1 := by omega
    subst hn
    simp [handleOutboxMsg, hfail, hnot, computeNextRetry]
  · simp [computeNextRetry]
  · simp [computeNextRetry]
  · simp [computeNextRetry]
  · simp [computeNextRetry]
  · intro k
    simp [computeNextRetry]

/- Concrete fixtures used by witnesses and counterexamples. -/

def pl0 : OutboxPayload := ⟨"a@b.co", some "subj", "body"⟩

def sendFailApi : OutboxPayload → Except String Unit := fun _ => Except.error "boom"

def sendOkApi : OutboxPayload → Except String Unit := fun _ => Except.ok ()

def task7 : TaskRow :=
  ⟨7, 2, 3, some 0, ActionType.remind, none, none, TaskStatus.sending, 0, none, 0⟩

def obRow1 : OutboxRow := ⟨1, some 7, 2, "email", pl0, OutboxStatus.sending, 4, 0, 0⟩

def store1 : Store := ⟨[], [], [], [task7], [obRow1], []⟩

def msgFail : ClaimedMsg := ⟨1, some 7, 2, "email", pl0, 4⟩

/-- C4 witness: at failure count 2 the scheduled delay is 120000 ms. -/
theorem outbox_backoff_schedule_witness :
    sendAttempt (sendFailApi pl0) (sendOkApi pl0) "email" = Except.error "boom"
    ∧ (1 : Nat) + 1 = 2 ∧ 2 < 5
    ∧ computeNextRetry 2 0 - 0 = 120000 := by
  refine ⟨rfl, rfl, by decide, ?_⟩
  exact (outbox_backoff_schedule 5 2 0 sendFailApi sendOkApi store1
    ⟨1, some 7, 2, "email", pl0, 1⟩ "boom" rfl rfl (by decide)).2.2.1

/-- C3: a claimed outbox row whose send fails with attempts + 1 at or above
MAX_ATTEMPTS is set to failed with attempts incremented; a linked task is set
to failed with a failed event recording the reason; and every row selected by
the claim query of a poll has status queued (so a failed row is never
selected again). -/
theorem outbox_failure_terminal (maxAttempts : Nat) (nowMs : Int)
    (sendEmailApi sendWaApi : OutboxPayload → Except String Unit)
    (s : Store) (msg : ClaimedMsg) (e : String)
    (hfail : sendAttempt (sendEmailApi msg.payload) (sendWaApi msg.payload) msg.channel = Except.error e)
    (hmax : maxAttempts ≤ msg.attempts + 1) :
    (msg.taskId = none →
      handleOutboxMsg maxAttempts sendEmailApi sendWaApi nowMs s msg =
        { s with outbox := updateOutboxRow s.outbox msg.outboxId (fun r => { r with status := OutboxStatus.failed, attempts := msg.attempts + 1 }) })
    ∧ (∀ tid, msg.taskId = some tid →
      handleOutboxMsg maxAttempts sendEmailApi sendWaApi nowMs s msg =
        { s with outbox := updateOutboxRow s.outbox msg.outboxId (fun r => { r with status := OutboxStatus.failed, attempts := msg.attempts + 1 }), tasks := updateTaskRow s.tasks tid (fun t => { t with status := TaskStatus.failed }), events := s.events ++ [⟨tid, msg.userId, EventType.failed, EventPayload.reason e⟩] })
    ∧ (∀ (s' : Store) (now' : Int) (m : ClaimedMsg), m ∈ (claimOutbox s' now').1 →
        ∃ r ∈ s'.outbox, r.status = OutboxStatus.queued ∧ r.nextRetryAt ≤ now' ∧ m = claimedProj r) := by
  refine ⟨?_, ?_, ?_⟩
  · intro hnone
    simp [handleOutboxMsg, hfail, hmax, hnone]
  · intro tid htid
    simp [handleOutboxMsg, hfail, hmax, htid, recordTaskEvent]
  · intro s' now' m hm
    simp only [claimOutbox] at hm
    obtain ⟨r, hr, rfl⟩ := List.mem_map.mp hm
    have hr2 : r ∈ List.insertionSort retryLe (s'.outbox.filter (outboxEligible now')) :=
      List.mem_of_mem_take hr
    have hr3 : r ∈ s'.outbox.filter (outboxEligible now') :=
      (List.perm_insertionSort retryLe _).mem_iff.mp hr2
    have hr4 := List.mem_filter.mp hr3
    have hel := hr4.2
    simp only [outboxEligible, Bool.and_eq_true, decide_eq_true_eq] at hel
    exact ⟨r, hr4.1, hel.1, hel.2, rfl⟩

/-- C3 witness: a fifth consecutive failure on a linked row makes the row and
its task failed with a failed event recording the thrown message. -/
theorem outbox_failure_terminal_witness :
    sendAttempt (sendFailApi pl0) (sendOkApi pl0) "email" = Except.error "boom"
    ∧ (5 : Nat) ≤ 4 + 1
    ∧ handleOutboxMsg 5 sendFailApi sendOkApi 0 store1 msgFail =
        { store1 with outbox := updateOutboxRow store1.outbox 1 (fun r => { r with status := OutboxStatus.failed, attempts := 5 }), tasks := updateTaskRow store1.tasks 7 (fun t => { t with status := TaskStatus.failed }), events := [⟨7, 2, EventType.failed, EventPayload.reason "boom"⟩] } := by
  refine ⟨rfl, by decide, ?_⟩
  exact (outbox_failure_terminal 5 0 sendFailApi sendOkApi store1 msgFail "boom" rfl
    (by decide)).2.1 7 rfl

/-- C5: a claimed outbox row whose send succeeds is set to sent with attempts
incremented; a linked task is set to done with a sent event followed by a done
event; with no linked task the task and event tables are untouched. -/
theorem outbox_success_path (maxAttempts : Nat) (nowMs : Int)
    (sendEmailApi sendWaApi : OutboxPayload → Except String Unit)
    (s : Store) (msg : ClaimedMsg)
    (hok : sendAttempt (sendEmailApi msg.payload) (sendWaApi msg.payload) msg.channel = Except.ok ()) :
    (msg.taskId = none →
      handleOutboxMsg maxAttempts sendEmailApi sendWaApi nowMs s msg =
        { s with outbox := updateOutboxRow s.outbox msg.outboxId (fun r => { r with status := OutboxStatus.sent, attempts := msg.attempts + 1 }) })
    ∧ (∀ tid, msg.taskId = some tid →
      handleOutboxMsg maxAttempts sendEmailApi sendWaApi nowMs s msg =
        { s with outbox := updateOutboxRow s.outbox msg.outboxId (fun r => { r with status := OutboxStatus.sent, attempts := msg.attempts + 1 }), tasks := updateTaskRow s.tasks tid (fun t => { t with status := TaskStatus.done }), events := s.events ++ [⟨tid, msg.userId, EventType.sent, EventPayload.empty⟩, ⟨tid, msg.userId, EventType.done, EventPayload.empty⟩] }) := by
  constructor
  · intro hnone
    simp [handleOutboxMsg, hok, hnone]
  · intro tid htid
    simp [handleOutboxMsg, hok, htid, recordTaskEvent]

/-- C5 witness: a successful send on a linked row marks the row sent and the
task done with sent and done events in order. -/
theorem outbox_success_path_witness :
    sendAttempt (sendOkApi pl0) (sendOkApi pl0) "email" = Except.ok ()
    ∧ handleOutboxMsg 5 sendOkApi sendOkApi 0 store1 msgFail =
        { store1 with outbox := updateOutboxRow store1.outbox 1 (fun r => { r with status := OutboxStatus.sent, attempts := 5 }), tasks := updateTaskRow store1.tasks 7 (fun t => { t with status := TaskStatus.done }), events := [⟨7, 2, EventType.sent, EventPayload.empty⟩, ⟨7, 2, EventType.done, EventPayload.empty⟩] } := by
  refine ⟨rfl, ?_⟩
  exact (outbox_success_path 5 0 sendOkApi sendOkApi store1 msgFail rfl).2 7 rfl

/-- C10: a claimed outbox row whose channel is neither email nor whatsapp
invokes no send API (whatever either send API would do, the try block returns
success), and the row still takes the success path: sent with attempts
incremented, and a linked task marked done with sent and done events. -/
theorem outbox_unknown_channel (maxAttempts : Nat) (nowMs : Int)
    (sendEmailApi sendWaApi : OutboxPayload → Except String Unit)
    (s : Store) (msg : ClaimedMsg)
    (he : msg.channel ≠ "email") (hw : msg.channel ≠ "whatsapp") :
    (∀ r1 r2 : Except String Unit, sendAttempt r1 r2 msg.channel = Except.ok ())
    ∧ (msg.taskId = none →
      handleOutboxMsg maxAttempts sendEmailApi sendWaApi nowMs s msg =
        { s with outbox := updateOutboxRow s.outbox msg.outboxId (fun r => { r with status := OutboxStatus.sent, attempts := msg.attempts + 1 }) })
    ∧ (∀ tid, msg.taskId = some tid →
      handleOutboxMsg maxAttempts sendEmailApi sendWaApi nowMs s msg =
        { s with outbox := updateOutboxRow s.outbox msg.outboxId (fun r => { r with status := OutboxStatus.sent, attempts := msg.attempts + 1 }), tasks := updateTaskRow s.tasks tid (fun t => { t with status := TaskStatus.done }), events := s.events ++ [⟨tid, msg.userId, EventType.sent, EventPayload.empty⟩, ⟨tid, msg.userId, EventType.done, EventPayload.empty⟩] }) := by
  have hsend : ∀ r1 r2 : Except String Unit, sendAttempt r1 r2 msg.channel = Except.ok () := by
    intro r1 r2
    simp [sendAttempt, he, hw]
  refine ⟨hsend, ?_, ?_⟩
  · intro hnone
    simp [handleOutboxMsg, hsend, hnone]
  · intro tid htid
    simp [handleOutboxMsg, hsend, htid, recordTaskEvent]

/-- C10 witness: a claimed row with channel sms goes to sent and its task to
done even though both send APIs would have thrown. -/
theorem outbox_unknown_channel_witness :
    ("sms" : String) ≠ "email" ∧ ("sms" : String) ≠ "whatsapp"
    ∧ handleOutboxMsg 5 sendFailApi sendFailApi 0 store1 ⟨1, some 7, 2, "sms", pl0, 0⟩ =
        { store1 with outbox := updateOutboxRow store1.outbox 1 (fun r => { r with status := OutboxStatus.sent, attempts := 1 }), tasks := updateTaskRow store1.tasks 7 (fun t => { t with status := TaskStatus.done }), events := [⟨7, 2, EventType.sent, EventPayload.empty⟩, ⟨7, 2, EventType.done, EventPayload.empty⟩] } := by
  refine ⟨by decide, by decide, ?_⟩
  exact (outbox_unknown_channel 5 0 sendFailApi sendFailApi store1
    ⟨1, some 7, 2, "sms", pl0, 0⟩ (by decide) (by decide)).2.2 7 rfl

/-- C6: an execute job whose task does not exist, or whose task is not in
status due, returns normally and leaves the store untouched; a replay after
the task moved past due is therefore a no-op. -/
theorem processExecute_gate (s : Store) (taskId : Nat)
    (draftResult : Except String DraftResult) (now : Int) (newOutboxId : Nat) :
    (s.tasks.find? (fun t => t.taskId = taskId) = none →
      processExecute s taskId draftResult now newOutboxId = Except.ok s)
    ∧ (∀ t, s.tasks.find? (fun t' => t'.taskId = taskId) = some t →
        t.status ≠ TaskStatus.due →
        processExecute s taskId draftResult now newOutboxId = Except.ok s) := by
  constructor
  · intro hnone
    simp [processExecute, hnone]
  · intro t ht hst
    simp [processExecute, ht, hst]

/-- C6 witness: replaying an execute job for a task already in status done
returns normally with the store unchanged. -/
theorem processExecute_gate_witness :
    ((⟨[], [], [], [⟨7, 2, 3, some 0, ActionType.remind, none, none, TaskStatus.done, 1, some 0, 0⟩], [], []⟩ : Store).tasks.find? (fun t' => t'.taskId = 7) = some ⟨7, 2, 3, some 0, ActionType.remind, none, none, TaskStatus.done, 1, some 0, 0⟩)
    ∧ TaskStatus.done ≠ TaskStatus.due
    ∧ processExecute ⟨[], [], [], [⟨7, 2, 3, some 0, ActionType.remind, none, none, TaskStatus.done, 1, some 0, 0⟩], [], []⟩ 7 (Except.ok ⟨"s", "b"⟩) 9 12 =
        Except.ok ⟨[], [], [], [⟨7, 2, 3, some 0, ActionType.remind, none, none, TaskStatus.done, 1, some 0, 0⟩], [], []⟩ := by
  refine ⟨by decide, by decide, ?_⟩
  exact (processExecute_gate ⟨[], [], [], [⟨7, 2, 3, some 0, ActionType.remind, none, none, TaskStatus.done, 1, some 0, 0⟩], [], []⟩ 7 (Except.ok ⟨"s", "b"⟩) 9 12).2
    ⟨7, 2, 3, some 0, ActionType.remind, none, none, TaskStatus.done, 1, some 0, 0⟩ (by decide) (by decide)

/- Invariants used by the ingest idempotence claim. -/

/-- At most one task per inbound: no two task rows share a source_inbound_id. -/
def uniqueSourceInbound (tasks : List TaskRow) : Prop :=
  List.Pairwise (fun a b => a.sourceInboundId ≠ b.sourceInboundId) tasks

/-- Every processed inbound row has a task created from it. This holds in all
reachable states because processIngest creates the task before marking the
inbound processed and nothing deletes tasks. -/
def processedImpliesTask (s : Store) : Prop :=
  ∀ m ∈ s.inbound, m.status = InboundStatus.processed →
    ∃ t ∈ s.tasks, t.sourceInboundId = m.inboundId

/-- A successful task insert extends the at-most-one-task-per-inbound
invariant: the unique-column guard admitted the new row. -/
theorem createTask_uniq (s : Store) (rec : TaskRow)
    (huniq : uniqueSourceInbound s.tasks) :
    ∀ s1, createTask s rec = Except.ok s1 → uniqueSourceInbound s1.tasks := by
  intro s1 h
  unfold createTask at h
  split at h
  · simp at h
  · rename_i hany
    simp only [Except.ok.injEq] at h
    subst h
    rw [uniqueSourceInbound, List.pairwise_append]
    refine ⟨huniq, List.pairwise_singleton _ _, ?_⟩
    intro a ha b hb
    have hb' : b = rec := by simpa using hb
    subst hb'
    intro hcontra
    exact hany (List.any_eq_true.mpr ⟨a, ha, by simp [hcontra]⟩)

/-- C1: a missing inbound row makes processIngest a no-op; when a task for
this inbound already exists (which holds for every processed inbound in a
reachable state), the task insert trips the unique source_inbound_id column
before any write, so a retried ingest job never creates a second task or
outbox row for the same inbound; an inbound already processed therefore
causes no writes; the at-most-one-task-per-inbound invariant is preserved by
any outcome; and a failed job leaves the store exactly as it was. -/
theorem processIngest_idempotent (s : Store) (inboundId userId : Nat)
    (extraction : ExtractionResult) (fmtDate : Int → String)
    (newTaskId newOutboxId : Nat) (now : Int) :
    (s.inbound.find? (fun m => m.inboundId = inboundId) = none →
      processIngest s inboundId userId extraction fmtDate newTaskId newOutboxId now = Except.ok s)
    ∧ (∀ m u, s.inbound.find? (fun m' => m'.inboundId = inboundId) = some m →
        s.users.find? (fun u' => u'.userId = userId) = some u →
        (∃ t ∈ s.tasks, t.sourceInboundId = inboundId) →
        processIngest s inboundId userId extraction fmtDate newTaskId newOutboxId now =
          Except.error (DbError.uniqueViolation, s))
    ∧ (processedImpliesTask s →
        ∀ m, s.inbound.find? (fun m' => m'.inboundId = inboundId) = some m →
        m.status = InboundStatus.processed →
        ingestResultStore (processIngest s inboundId userId extraction fmtDate newTaskId newOutboxId now) = s)
    ∧ (uniqueSourceInbound s.tasks →
        uniqueSourceInbound (ingestResultStore (processIngest s inboundId userId extraction fmtDate newTaskId newOutboxId now)).tasks)
    ∧ (∀ err s', processIngest s inboundId userId extraction fmtDate newTaskId newOutboxId now = Except.error (err, s') → s' = s) := by
  have hany : (∃ t ∈ s.tasks, t.sourceInboundId = inboundId) →
      s.tasks.any (fun u => u.sourceInboundId = inboundId) = true := by
    intro h
    obtain ⟨t, ht, hsrc⟩ := h
    exact List.any_eq_true.mpr ⟨t, ht, by simp [hsrc]⟩
  have hb : ∀ m u, s.inbound.find? (fun m' => m'.inboundId = inboundId) = some m →
      s.users.find? (fun u' => u'.userId = userId) = some u →
      (∃ t ∈ s.tasks, t.sourceInboundId = inboundId) →
      processIngest s inboundId userId extraction fmtDate newTaskId newOutboxId now =
        Except.error (DbError.uniqueViolation, s) := by
    intro m u hm hu hex
    have h1 := hany hex
    by_cases hcl : extraction.needs_clarification = true
    · simp [processIngest, hm, hu, hcl, createTask, h1]
    · simp [processIngest, hm, hu, hcl, createTask, h1]
  refine ⟨?_, hb, ?_, ?_, ?_⟩
  · intro hnone
    simp [processIngest, hnone]
  · intro hinv m hm hproc
    rcases hu : s.users.find? (fun u' => u'.userId = userId) with _ | u
    · simp [processIngest, hm, hu, ingestResultStore]
    · have hmem : m ∈ s.inbound := List.mem_of_find?_eq_some hm
      have hex := hinv m hmem hproc
      have hid : m.inboundId = inboundId := by simpa using List.find?_some hm
      rw [hb m u hm hu (hid ▸ hex)]
      rfl
  · intro huniq
    simp only [processIngest]
    split
    · simpa [ingestResultStore] using huniq
    · split
      · simpa [ingestResultStore] using huniq
      · split
        · split
          · simpa [ingestResultStore] using huniq
          · rename_i s1 heq
            simpa [ingestResultStore, markInboundProcessed, createOutbox, recordTaskEvent] using
              createTask_uniq s _ huniq s1 heq
        · split
          · simpa [ingestResultStore] using huniq
          · rename_i s1 heq
            simpa [ingestResultStore, markInboundProcessed, createOutbox, recordTaskEvent] using
              createTask_uniq s _ huniq s1 heq
  · intro err s' h
    simp only [processIngest] at h
    split at h
    · simp at h
    · split at h
      · simp at h
      · split at h
        · split at h
          · simp only [Except.error.injEq, Prod.mk.injEq] at h
            exact h.2.symm
          · simp at h
        · split at h
          · simp only [Except.error.injEq, Prod.mk.injEq] at h
            exact h.2.symm
          · simp at h

def userAlice : UserRow := ⟨2, some "alice@example.com", some "15551234567", "Alice"⟩

def inbProcessed : InboundRow := ⟨1, 2, "email", "m1", "2:m1", none, InboundStatus.processed⟩

def taskForInb1 : TaskRow :=
  ⟨5, 2, 1, some 3, ActionType.remind, none, none, TaskStatus.pending, 0, none, 0⟩

def storeIng : Store := ⟨[userAlice], [], [inbProcessed], [taskForInb1], [], []⟩

def extrClear : ExtractionResult :=
  ⟨false, "", some 3, some ActionType.remind, "the doctor", "test results"⟩

def fmt0 : Int → String := fun _ => "formatted date"

/-- C1 witness: retrying the ingest job of an already processed inbound (its
task exists) performs no writes. -/
theorem processIngest_idempotent_witness :
    processedImpliesTask storeIng
    ∧ storeIng.inbound.find? (fun m' => m'.inboundId = 1) = some inbProcessed
    ∧ inbProcessed.status = InboundStatus.processed
    ∧ ingestResultStore (processIngest storeIng 1 2 extrClear fmt0 10 11 0) = storeIng := by
  have hpt : processedImpliesTask storeIng := by
    unfold processedImpliesTask
    decide
  refine ⟨hpt, by decide, by decide, ?_⟩
  exact (processIngest_idempotent storeIng 1 2 extrClear fmt0 10 11 0).2.2.1
    hpt inbProcessed (by decide) (by decide)

/-- The claimed Task invariant: due_at is NULL iff the status is
needs_clarification. -/
def taskNullIff (t : TaskRow) : Prop :=
  t.dueAt = none ↔ t.status = TaskStatus.needs_clarification

/-- A successful task insert appends exactly the new row. -/
theorem createTask_ok_store (s : Store) (rec : TaskRow) (s1 : Store)
    (h : createTask s rec = Except.ok s1) : s1 = { s with tasks := s.tasks ++ [rec] } := by
  unfold createTask at h
  split at h
  · simp at h
  · simpa using h.symm

/-- Preservation of a per-row invariant by a keyed update: rows that do not
match the key are unchanged, and the rewritten rows must satisfy it anew. -/
theorem updateTaskRow_inv (P : TaskRow → Prop) (l : List TaskRow) (id : Nat)
    (f : TaskRow → TaskRow)
    (hpre : ∀ t ∈ l, P t)
    (hf : ∀ t ∈ l, t.taskId = id → P (f t)) :
    ∀ t ∈ updateTaskRow l id f, P t := by
  intro t ht
  obtain ⟨t0, ht0, rfl⟩ := List.mem_map.mp ht
  by_cases h : t0.taskId = id
  · simpa [h] using hf t0 ht0 h
  · simpa [h] using hpre t0 ht0

/-- Two keyed updates with the same key compose when the first one keeps the
key field. -/
theorem updateTaskRow_twice (l : List TaskRow) (id : Nat) (f g : TaskRow → TaskRow)
    (hf : ∀ t, (f t).taskId = t.taskId) :
    updateTaskRow (updateTaskRow l id f) id g = updateTaskRow l id (fun t => g (f t)) := by
  unfold updateTaskRow
  rw [List.map_map]
  apply List.map_congr_left
  intro t _
  by_cases h : t.taskId = id
  · simp [Function.comp, h, hf]
  · simp [Function.comp, h]

def inbReceived : InboundRow := ⟨1, 2, "email", "m1", "2:m1", some "hello", InboundStatus.received⟩

def storeFresh : Store := ⟨[userAlice], [], [inbReceived], [], [], []⟩

/-- A malformed extractor output the code accepts unvalidated: the JSON
claims no clarification is needed yet carries a null due_at_iso. -/
def extrBad : ExtractionResult :=
  ⟨false, "", none, some ActionType.remind, "the doctor", "test results"⟩

def taskNC : TaskRow :=
  ⟨9, 2, 1, none, ActionType.remind_and_draft, none, none, TaskStatus.needs_clarification, 0, none, 0⟩

def obNC : OutboxRow := ⟨3, some 9, 2, "email", pl0, OutboxStatus.sending, 0, 0, 0⟩

def storeNC : Store := ⟨[userAlice], [], [], [taskNC], [obNC], []⟩

def msgNC : ClaimedMsg := ⟨3, some 9, 2, "email", pl0, 0⟩

/-- C7 counterexample, two concrete violations of the claimed invariant:
running the ingest worker on a fresh inbound with a needs_clarification =
false, due_at_iso = null extraction creates a task with status pending and
NULL due_at (refuting the iff and the claimed non-NULL due_at); and the
outbox sender, on successfully sending the clarifying-question message of a
needs_clarification task, updates that task to done while its due_at stays
NULL, so an invariant-satisfying store is updated into a violating one. -/
theorem task_null_iff_counterexample :
    extrBad.needs_clarification = false
    ∧ (ingestResultStore (processIngest storeFresh 1 2 extrBad fmt0 10 11 0)).tasks.any
        (fun t => decide (t.status = TaskStatus.pending) && decide (t.dueAt = none)) = true
    ∧ ¬ (∀ t ∈ (ingestResultStore (processIngest storeFresh 1 2 extrBad fmt0 10 11 0)).tasks, taskNullIff t)
    ∧ (∀ t ∈ storeNC.tasks, taskNullIff t)
    ∧ (handleOutboxMsg 5 sendOkApi sendOkApi 0 storeNC msgNC).tasks.any
        (fun t => decide (t.status = TaskStatus.done) && decide (t.dueAt = none)) = true
    ∧ ¬ (∀ t ∈ (handleOutboxMsg 5 sendOkApi sendOkApi 0 storeNC msgNC).tasks, taskNullIff t) := by
  refine ⟨rfl, by decide, ?_, ?_, by decide, ?_⟩
  · unfold taskNullIff
    decide
  · unfold taskNullIff
    decide
  · unfold taskNullIff
    decide

/-- C7 amended: under the extractor contract (needs_clarification = false
implies a non-null due_at_iso), every task row created by the ingest worker
satisfies the iff-invariant, the invariant is preserved by a scheduler tick
and by the executor (given distinct task ids), and a contract-satisfying
extraction with needs_clarification = false creates the task with status
pending and non-NULL due_at equal to the extracted instant. -/
theorem task_null_iff_amended (s : Store) (inboundId userId : Nat)
    (extraction : ExtractionResult) (fmtDate : Int → String)
    (newTaskId newOutboxId : Nat) (now : Int) (q : Queue)
    (taskId : Nat) (draftResult : Except String DraftResult) (newOutboxId2 : Nat)
    (hcontract : extraction.needs_clarification = false → extraction.due_at_iso ≠ none)
    (hpre : ∀ t ∈ s.tasks, taskNullIff t) :
    (∀ t ∈ (ingestResultStore (processIngest s inboundId userId extraction fmtDate newTaskId newOutboxId now)).tasks, taskNullIff t)
    ∧ ((s.tasks.map (fun t => t.taskId)).Nodup →
        ∀ t ∈ (tick s q now).2.1.tasks, taskNullIff t)
    ∧ ((s.tasks.map (fun t => t.taskId)).Nodup →
        ∀ t ∈ (execResultStore (processExecute s taskId draftResult now newOutboxId2)).tasks, taskNullIff t)
    ∧ (∀ d s' m u, s.inbound.find? (fun m' => m'.inboundId = inboundId) = some m →
        s.users.find? (fun u' => u'.userId = userId) = some u →
        extraction.needs_clarification = false → extraction.due_at_iso = some d →
        processIngest s inboundId userId extraction fmtDate newTaskId newOutboxId now = Except.ok s' →
        ∃ t ∈ s'.tasks, t.taskId = newTaskId ∧ t.status = TaskStatus.pending ∧ t.dueAt = some d) := by
  refine ⟨?_, ?_, ?_, ?_⟩
  · -- ingest creation under the contract
    simp only [processIngest]
    split
    · exact hpre
    · split
      · exact hpre
      · split
        · -- clarification branch: the new row has dueAt none and status nc
          split
          · exact hpre
          · rename_i s1 heq
            have hs1 := createTask_ok_store s _ s1 heq
            subst hs1
            simp only [ingestResultStore, markInboundProcessed, createOutbox, recordTaskEvent]
            intro t ht
            rcases List.mem_append.mp ht with h | h
            · exact hpre t h
            · have : t = _ := List.mem_singleton.mp h
              subst this
              simp [taskNullIff]
        · -- scheduled branch: the new row has dueAt = due_at_iso which the
          -- contract makes non-null, and status pending
          rename_i hncl
          have hfalse : extraction.needs_clarification = false := by
            revert hncl
            cases extraction.needs_clarification <;> simp
          have hdue := hcontract hfalse
          split
          · exact hpre
          · rename_i s1 heq
            have hs1 := createTask_ok_store s _ s1 heq
            subst hs1
            simp only [ingestResultStore, markInboundProcessed, createOutbox, recordTaskEvent]
            intro t ht
            rcases List.mem_append.mp ht with h | h
            · exact hpre t h
            · have : t = _ := List.mem_singleton.mp h
              subst this
              simp only [taskNullIff]
              constructor
              · intro hnone
                exact absurd hnone hdue
              · intro hst
                simp at hst
  · -- a scheduler tick sets status due only on rows whose due_at is non-null
    intro hnodup
    simp only [tick]
    have hfold : ∀ (pairs : List (Nat × Nat)) (acc : Store × Queue),
        (pairs.foldl (fun (acc : Store × Queue) (p : Nat × Nat) =>
          (recordTaskEvent acc.1 p.1 p.2 EventType.due EventPayload.empty,
           addJob acc.2 ("exec:" ++ toString p.1) (JobPayload.execute p.1))) acc).1.tasks = acc.1.tasks := by
      intro pairs
      induction pairs with
      | nil => intro acc; rfl
      | cons p ps ih => intro acc; rw [List.foldl_cons, ih]; rfl
    rw [hfold]
    intro t ht
    obtain ⟨t0, ht0, rfl⟩ := List.mem_map.mp ht
    by_cases hc : (((List.insertionSort dueLe (s.tasks.filter (taskEligible now))).take 100).map (fun t => t.taskId)).contains t0.taskId = true
    · obtain ⟨t1, ht1, hid⟩ := List.mem_map.mp (List.mem_of_elem_eq_true hc)
      have ht1' : t1 ∈ s.tasks.filter (taskEligible now) :=
        (List.perm_insertionSort dueLe _).mem_iff.mp (List.mem_of_mem_take ht1)
      have ht1f := List.mem_filter.mp ht1'
      have heq : t1 = t0 :=
        List.inj_on_of_nodup_map hnodup ht1f.1 ht0 hid
      subst heq
      have hel := ht1f.2
      simp only [taskEligible, Bool.and_eq_true, decide_eq_true_eq] at hel
      rw [if_pos hc]
      rcases hdue : t1.dueAt with _ | d
      · rw [hdue] at hel
        simp at hel
      · simp [taskNullIff, hdue]
    · rw [if_neg hc]
      exact hpre t0 ht0
  · -- the executor rewrites only the row in status due, whose due_at is
    -- non-null, to executing and then sending
    intro hnodup
    simp only [processExecute]
    split
    · exact hpre
    · rename_i task hfind
      split
      · exact hpre
      · rename_i hdue'
        have htmem : task ∈ s.tasks := List.mem_of_find?_eq_some hfind
        have htid : task.taskId = taskId := by simpa using List.find?_some hfind
        have htdue : task.status = TaskStatus.due := by
          revert hdue'
          by_cases h : task.status = TaskStatus.due <;> simp [h]
        have hnn : task.dueAt ≠ none := by
          intro hnone
          have := (hpre task htmem).mp hnone
          rw [htdue] at this
          exact absurd this (by simp)
        have hrow : ∀ t ∈ s.tasks, t.taskId = taskId → t = task := by
          intro t ht hid
          exact List.inj_on_of_nodup_map hnodup ht htmem (by rw [hid, htid])
        have hupd1 : ∀ t ∈ updateTaskRow s.tasks taskId
            (fun t => { t with status := TaskStatus.executing, lastAttemptAt := some now, attemptCount := t.attemptCount + 1 }), taskNullIff t := by
          apply updateTaskRow_inv _ _ _ _ hpre
          intro t ht hid
          have := hrow t ht hid
          subst this
          simp [taskNullIff, hnn]
        have hupd2 : ∀ t ∈ updateTaskRow s.tasks taskId
            (fun t => { ({ t with status := TaskStatus.executing, lastAttemptAt := some now, attemptCount := t.attemptCount + 1 } : TaskRow) with status := TaskStatus.sending }), taskNullIff t := by
          apply updateTaskRow_inv _ _ _ _ hpre
          intro t ht hid
          have := hrow t ht hid
          subst this
          simp [taskNullIff, hnn]
        split
        · simpa [execResultStore, recordTaskEvent] using hupd1
        · split
          · -- remind branch
            simp only [execResultStore, recordTaskEvent, createOutbox]
            rw [updateTaskRow_twice s.tasks taskId _ _ (by intro t; rfl)]
            exact hupd2
          · split
            · simpa [execResultStore, recordTaskEvent] using hupd1
            · simp only [execResultStore, recordTaskEvent, createOutbox]
              rw [updateTaskRow_twice s.tasks taskId _ _ (by intro t; rfl)]
              exact hupd2
  · -- the scheduled branch creates the pending task with the extracted instant
    intro d s' m u hm hu hfalse hsome hok
    simp only [processIngest, hm, hu] at hok
    rw [hfalse, if_neg (show ¬ (false = true) by simp)] at hok
    split at hok
    · simp at hok
    · rename_i s1 heq
      have hs1 := createTask_ok_store s _ s1 heq
      subst hs1
      simp only [Except.ok.injEq] at hok
      subst hok
      simp only [markInboundProcessed, createOutbox, recordTaskEvent, updateInboundRow]
      exact ⟨_, List.mem_append_right _ (List.mem_singleton_self _), rfl, rfl, hsome⟩

/-- C7 witness: a contract-satisfying extraction keeps the iff-invariant on
every task after the ingest run. -/
theorem task_null_iff_amended_witness :
    (extrClear.needs_clarification = false → extrClear.due_at_iso ≠ none)
    ∧ (∀ t ∈ storeFresh.tasks, taskNullIff t)
    ∧ (∀ t ∈ (ingestResultStore (processIngest storeFresh 1 2 extrClear fmt0 10 11 0)).tasks, taskNullIff t) := by
  have hpre : ∀ t ∈ storeFresh.tasks, taskNullIff t := by
    intro t ht
    exact absurd ht (List.not_mem_nil t)
  have h := task_null_iff_amended storeFresh 1 2 extrClear fmt0 10 11 0 [] 0
    (Except.ok ⟨"s", "b"⟩) 12 (by decide) hpre
  exact ⟨by decide, hpre, h.1⟩

/- ── C8: email webhook ── -/

def pEmail : EmailPayload := ⟨"m1", "alice@example.com", "c@x.co", "Hi", "body text", "t0"⟩

def store0 : Store := ⟨[userAlice], [], [], [], [], []⟩

def emailS1 : Store :=
  ⟨[userAlice], [], [⟨1, 2, "email", "m1", "2:m1", some "Hi\nbody text", InboundStatus.received⟩], [], [], []⟩

def emailQ1 : Queue := [⟨"2:m1", JobPayload.ingest 1 2⟩]

/-- C8 counterexample: two identical webhook requests interleaved at the await
boundary between the idempotency lookup and the insert (each store call is a
suspension point): both pass the lookup, the first insert succeeds and is
accepted, and the second insert hits the unique constraint; the code has no
catch there, so the outcome is the propagated error (a 500 through the global
error handler), not a duplicate response as the claim states. -/
theorem email_webhook_conflict_counterexample :
    emailPhase1 store0 pEmail = EmailPhase1.proceed userAlice "2:m1"
    ∧ processEmailWebhook store0 [] pEmail 1 = Except.ok (WebhookResponse.accepted 1, emailS1, emailQ1)
    ∧ emailPhase1 emailS1 pEmail = EmailPhase1.duplicate
    ∧ emailPhase2 emailS1 emailQ1 userAlice "2:m1" pEmail 2 = Except.error DbError.uniqueViolation := by
  refine ⟨rfl, rfl, rfl, rfl⟩

/-- C8 amended: an unknown sender yields an ignored response with no store or
queue write; an existing idempotency key at lookup time yields a duplicate
response with no write; otherwise exactly one inbound row with the computed
key and status received is inserted and one ingest job with that key as its
identity is enqueued, and the response is accepted with the new id; but when
the key appears between the lookup and the insert, the insert raises a unique
violation that the route does not convert to a duplicate response. -/
theorem email_webhook_behavior (s : Store) (q : Queue) (p : EmailPayload)
    (newInboundId : Nat) :
    (s.users.find? (fun u => u.primaryEmail = some p.fromAddr) = none →
      processEmailWebhook s q p newInboundId = Except.ok (WebhookResponse.ignored, s, q))
    ∧ (∀ u, s.users.find? (fun u' => u'.primaryEmail = some p.fromAddr) = some u →
        (∃ m ∈ s.inbound, m.idempotencyKey = toString u.userId ++ ":" ++ p.messageId) →
        processEmailWebhook s q p newInboundId = Except.ok (WebhookResponse.duplicate, s, q))
    ∧ (∀ u, s.users.find? (fun u' => u'.primaryEmail = some p.fromAddr) = some u →
        (¬ ∃ m ∈ s.inbound, m.idempotencyKey = toString u.userId ++ ":" ++ p.messageId) →
        processEmailWebhook s q p newInboundId = Except.ok (WebhookResponse.accepted newInboundId,
          { s with inbound := s.inbound ++ [⟨newInboundId, u.userId, "email", p.messageId, toString u.userId ++ ":" ++ p.messageId, some (p.subject ++ "\n" ++ p.textBody), InboundStatus.received⟩] },
          addJob q (toString u.userId ++ ":" ++ p.messageId) (JobPayload.ingest newInboundId u.userId)))
    ∧ (∀ u key, (∃ m ∈ s.inbound, m.idempotencyKey = key) →
        emailPhase2 s q u key p newInboundId = Except.error DbError.uniqueViolation) := by
  refine ⟨?_, ?_, ?_, ?_⟩
  · intro hnone
    simp [processEmailWebhook, emailPhase1, hnone]
  · intro u hu hex
    obtain ⟨m, hm, hk⟩ := hex
    have hsome : (s.inbound.find? (fun m' => m'.idempotencyKey = toString u.userId ++ ":" ++ p.messageId)).isSome := by
      rw [List.find?_isSome]
      exact ⟨m, hm, by simp [hk]⟩
    rcases hfind : s.inbound.find? (fun m' => m'.idempotencyKey = toString u.userId ++ ":" ++ p.messageId) with _ | m'
    · rw [hfind] at hsome
      simp at hsome
    · simp [processEmailWebhook, emailPhase1, hu, hfind]
  · intro u hu hnex
    have hnone : s.inbound.find? (fun m' => m'.idempotencyKey = toString u.userId ++ ":" ++ p.messageId) = none := by
      rw [List.find?_eq_none]
      intro m hm
      simp only [decide_eq_true_eq]
      intro hk
      exact hnex ⟨m, hm, hk⟩
    have hnoany : s.inbound.any (fun m' => m'.idempotencyKey = toString u.userId ++ ":" ++ p.messageId) = false := by
      rw [Bool.eq_false_iff]
      intro hany
      obtain ⟨m, hm, hk⟩ := List.any_eq_true.mp hany
      exact hnex ⟨m, hm, by simpa using hk⟩
    simp [processEmailWebhook, emailPhase1, hu, hnone, emailPhase2, insertInbound, hnoany]
  · intro u key hex
    obtain ⟨m, hm, hk⟩ := hex
    have hany : s.inbound.any (fun m' => m'.idempotencyKey = key) = true :=
      List.any_eq_true.mpr ⟨m, hm, by simp [hk]⟩
    simp [emailPhase2, insertInbound, hany]

/-- C8 witness: the fresh case inserts one row and enqueues one job keyed by
the idempotency key, answering accepted. -/
theorem email_webhook_behavior_witness :
    store0.users.find? (fun u' => u'.primaryEmail = some pEmail.fromAddr) = some userAlice
    ∧ (¬ ∃ m ∈ store0.inbound, m.idempotencyKey = toString userAlice.userId ++ ":" ++ pEmail.messageId)
    ∧ processEmailWebhook store0 [] pEmail 1 = Except.ok (WebhookResponse.accepted 1,
        { store0 with inbound := store0.inbound ++ [⟨1, userAlice.userId, "email", pEmail.messageId, toString userAlice.userId ++ ":" ++ pEmail.messageId, some (pEmail.subject ++ "\n" ++ pEmail.textBody), InboundStatus.received⟩] },
        addJob [] (toString userAlice.userId ++ ":" ++ pEmail.messageId) (JobPayload.ingest 1 userAlice.userId)) := by
  have hnex : ¬ ∃ m ∈ store0.inbound, m.idempotencyKey = toString userAlice.userId ++ ":" ++ pEmail.messageId := by
    intro h
    obtain ⟨m, hm, _⟩ := h
    exact absurd hm (List.not_mem_nil m)
  refine ⟨by decide, hnex, ?_⟩
  exact (email_webhook_behavior store0 [] pEmail 1).2.2.1 userAlice (by decide) hnex

/- ── C2: scheduler tick ── -/

/-- The event-and-enqueue loop after the claim does not touch the tasks table. -/
theorem tick_fold_tasks (pairs : List (Nat × Nat)) (acc : Store × Queue) :
    (pairs.foldl (fun (acc : Store × Queue) (p : Nat × Nat) =>
      (recordTaskEvent acc.1 p.1 p.2 EventType.due EventPayload.empty,
       addJob acc.2 ("exec:" ++ toString p.1) (JobPayload.execute p.1))) acc).1.tasks = acc.1.tasks := by
  induction pairs generalizing acc with
  | nil => rfl
  | cons p ps ih => rw [List.foldl_cons, ih]; rfl

/-- A tick on a store with no eligible task returns nothing. -/
theorem tick_no_eligible (s : Store) (q : Queue) (now : Int)
    (h : s.tasks.filter (taskEligible now) = []) : (tick s q now).1 = [] := by
  simp only [tick, h]
  rfl

/-- C2 amended: one tick returns the first 100 eligible rows (status pending
and due_at at or before now) in ascending due_at order as (task_id, user_id)
pairs; every returned pair comes from an eligible row and a row whose due_at
is NULL or in the future is never claimed; and when at most 100 tasks are
eligible, the tick rewrites exactly the eligible rows to status due with
updated_at = now and an immediately repeated identical tick claims nothing. -/
theorem tick_correct (s : Store) (q : Queue) (now : Int)
    (hnodup : (s.tasks.map (fun t => t.taskId)).Nodup) :
    (tick s q now).1 = ((List.insertionSort dueLe (s.tasks.filter (taskEligible now))).take 100).map (fun t => (t.taskId, t.userId))
    ∧ List.Perm (List.insertionSort dueLe (s.tasks.filter (taskEligible now))) (s.tasks.filter (taskEligible now))
    ∧ List.Sorted dueLe (List.insertionSort dueLe (s.tasks.filter (taskEligible now)))
    ∧ (∀ p ∈ (tick s q now).1, ∃ t ∈ s.tasks, taskEligible now t = true ∧ p = (t.taskId, t.userId))
    ∧ (∀ t ∈ s.tasks, (t.dueAt = none ∨ ∃ d, t.dueAt = some d ∧ now < d) →
        ∀ uid, (t.taskId, uid) ∉ (tick s q now).1)
    ∧ ((s.tasks.filter (taskEligible now)).length ≤ 100 →
        (tick s q now).1 = (List.insertionSort dueLe (s.tasks.filter (taskEligible now))).map (fun t => (t.taskId, t.userId))
        ∧ (tick s q now).2.1.tasks = s.tasks.map (fun t => if taskEligible now t then { t with status := TaskStatus.due, updatedAt := now } else t)
        ∧ (∀ q', (tick (tick s q now).2.1 q' now).1 = [])) := by
  have hperm := List.perm_insertionSort dueLe (s.tasks.filter (taskEligible now))
  have hret : (tick s q now).1 =
      ((List.insertionSort dueLe (s.tasks.filter (taskEligible now))).take 100).map (fun t => (t.taskId, t.userId)) := by
    simp only [tick]
  have hsound : ∀ p ∈ (tick s q now).1, ∃ t ∈ s.tasks, taskEligible now t = true ∧ p = (t.taskId, t.userId) := by
    intro p hp
    rw [hret] at hp
    obtain ⟨t1, ht1, rfl⟩ := List.mem_map.mp hp
    have ht1f := List.mem_filter.mp (hperm.mem_iff.mp (List.mem_of_mem_take ht1))
    exact ⟨t1, ht1f.1, ht1f.2, rfl⟩
  refine ⟨hret, hperm, List.sorted_insertionSort dueLe _, hsound, ?_, ?_⟩
  · intro t ht hfut uid hmem
    obtain ⟨t1, ht1, hel1, hpair⟩ := hsound _ hmem
    have hid : t.taskId = t1.taskId := congrArg Prod.fst hpair
    have heq : t1 = t := List.inj_on_of_nodup_map hnodup ht1 ht hid.symm
    rw [heq] at hel1
    simp only [taskEligible, Bool.and_eq_true, decide_eq_true_eq] at hel1
    rcases hfut with hnone | ⟨d, hd, hlt⟩
    · rw [hnone] at hel1
      simp at hel1
    · rw [hd] at hel1
      have := hel1.2
      simp only [decide_eq_true_eq] at this
      omega
  · intro hlen
    have htake : (List.insertionSort dueLe (s.tasks.filter (taskEligible now))).take 100 =
        List.insertionSort dueLe (s.tasks.filter (taskEligible now)) := by
      apply List.take_of_length_le
      rw [hperm.length_eq]
      exact hlen
    have hcontains : ∀ t ∈ s.tasks,
        ((List.insertionSort dueLe (s.tasks.filter (taskEligible now))).map (fun t => t.taskId)).contains t.taskId = true ↔
          taskEligible now t = true := by
      intro t ht
      constructor
      · intro hc
        obtain ⟨t1, ht1, hid⟩ := List.mem_map.mp (List.mem_of_elem_eq_true hc)
        have ht1f := List.mem_filter.mp (hperm.mem_iff.mp ht1)
        have heq : t1 = t := List.inj_on_of_nodup_map hnodup ht1f.1 ht hid
        rw [← heq]
        exact ht1f.2
      · intro hel
        apply List.elem_eq_true_of_mem
        exact List.mem_map.mpr ⟨t, hperm.mem_iff.mpr (List.mem_filter.mpr ⟨ht, hel⟩), rfl⟩
    have htasks : (tick s q now).2.1.tasks =
        s.tasks.map (fun t => if taskEligible now t then { t with status := TaskStatus.due, updatedAt := now } else t) := by
      simp only [tick, htake, tick_fold_tasks]
      apply List.map_congr_left
      intro t ht
      by_cases hel : taskEligible now t = true
      · rw [if_pos ((hcontains t ht).mpr hel), if_pos hel]
      · rw [if_neg (fun hc => hel ((hcontains t ht).mp hc)), if_neg hel]
    refine ⟨by rw [hret, htake], htasks, ?_⟩
    intro q'
    have hnil : (tick s q now).2.1.tasks.filter (taskEligible now) = [] := by
      rw [htasks]
      apply List.filter_eq_nil_iff.mpr
      intro x hx
      obtain ⟨t, ht, rfl⟩ := List.mem_map.mp hx
      by_cases hel : taskEligible now t = true
      · rw [if_pos hel]
        simp [taskEligible]
      · rw [if_neg hel]
        exact hel
    exact tick_no_eligible _ q' now hnil

def cexTask (i : Nat) : TaskRow :=
  ⟨i, 1, i, some 0, ActionType.remind, none, none, TaskStatus.pending, 0, none, 0⟩

def cexStore : Store := ⟨[], [], [], (List.range 101).map cexTask, [], []⟩

/-- C2 counterexample: with 101 eligible pending tasks the first tick claims
only 100 (the LIMIT of the claim query), so an immediately repeated identical
tick claims one more task instead of zero, refuting the unconditional
repeated-tick clause of the claim. -/
theorem tick_batch_limit_counterexample :
    ((tick cexStore [] 0).1).length = 100
    ∧ ((tick (tick cexStore [] 0).2.1 (tick cexStore [] 0).2.2 0).1).length = 1 := by
  constructor
  · rfl
  · rfl

def wsTask1 : TaskRow := ⟨1, 4, 1, some 0, ActionType.remind, none, none, TaskStatus.pending, 0, none, 0⟩

def wsTask2 : TaskRow := ⟨2, 4, 2, some 5, ActionType.remind, none, none, TaskStatus.pending, 0, none, 0⟩

def wsStore : Store := ⟨[], [], [], [wsTask1, wsTask2], [], []⟩

/-- C2 witness: with one past-due and one future task, a tick claims exactly
the past-due one and an immediately repeated identical tick claims nothing. -/
theorem tick_correct_witness :
    (wsStore.tasks.map (fun t => t.taskId)).Nodup
    ∧ (wsStore.tasks.filter (taskEligible 0)).length ≤ 100
    ∧ (tick wsStore [] 0).1 = (List.insertionSort dueLe (wsStore.tasks.filter (taskEligible 0))).map (fun t => (t.taskId, t.userId))
    ∧ (tick (tick wsStore [] 0).2.1 [] 0).1 = [] := by
  have h := tick_correct wsStore [] 0 (by decide)
  have hgate := h.2.2.2.2.2 (by decide)
  exact ⟨by decide, by decide, hgate.1, hgate.2.2 []⟩

/- ── C9: redactPii characterization ── -/

/-- What a global regex replace is: the output decomposes the input into
kept characters, at which the matcher confirms no match starts (given the
preceding original character as boundary context), and matched chunks, each
an actual match of positive length replaced by the marker, with scanning
resuming after the chunk. The kept characters pass through unchanged in
order. -/
inductive ReplSpec (m : Option Char → List Char → Option Nat) (r : List Char) :
    Option Char → List Char → List Char → Prop
  | nil (prev : Option Char) : ReplSpec m r prev [] []
  | keep (prev : Option Char) (c : Char) (cs out : List Char) :
      m prev (c :: cs) = none →
      ReplSpec m r (some c) cs out →
      ReplSpec m r prev (c :: cs) (c :: out)
  | repl (prev : Option Char) (l out : List Char) (n : Nat) :
      m prev l = some n → 1 ≤ n →
      ReplSpec m r ((l.take n).getLast?) (l.drop n) out →
      ReplSpec m r prev l (r ++ out)

/-- The scanning replacer realizes ReplSpec whenever the matcher only returns
matches of positive length. -/
theorem scanRepl_spec (m : Option Char → List Char → Option Nat) (r : List Char)
    (hm : ∀ prev l n, m prev l = some n → 1 ≤ n) :
    ∀ (fuel : Nat) (prev : Option Char) (l : List Char), l.length ≤ fuel →
      ReplSpec m r prev l (scanRepl m r fuel prev l) := by
  intro fuel
  induction fuel with
  | zero =>
    intro prev l hl
    have hnil : l = [] := List.eq_nil_of_length_eq_zero (Nat.le_zero.mp hl)
    subst hnil
    exact ReplSpec.nil prev
  | succ f ih =>
    intro prev l hl
    cases l with
    | nil => exact ReplSpec.nil prev
    | cons c cs =>
      rcases hm2 : m prev (c :: cs) with _ | n
      · have hrec := ih (some c) cs (by simp at hl; omega)
        have : scanRepl m r (f + 1) prev (c :: cs) = c :: scanRepl m r f (some c) cs := by
          simp only [scanRepl, hm2]
        rw [this]
        exact ReplSpec.keep prev c cs _ hm2 hrec
      · have hn := hm prev (c :: cs) n hm2
        have hlen : ((c :: cs).drop n).length ≤ f := by
          rw [List.length_drop]
          simp at hl ⊢
          omega
        have hrec := ih (((c :: cs).take n).getLast?) ((c :: cs).drop n) hlen
        have : scanRepl m r (f + 1) prev (c :: cs) =
            r ++ scanRepl m r f (((c :: cs).take n).getLast?) ((c :: cs).drop n) := by
          simp only [scanRepl, hm2]
        rw [this]
        exact ReplSpec.repl prev (c :: cs) _ n hm2 hn hrec

theorem matchSSN_pos : ∀ prev l n, matchSSN prev l = some n → 1 ≤ n := by
  intro prev l n h
  unfold matchSSN at h
  split at h
  · split at h
    · simp only [Option.some.injEq] at h
      omega
    · simp at h
  · simp at h

theorem matchCC_pos : ∀ prev l n, matchCC prev l = some n → 1 ≤ n := by
  intro prev l n h
  simp only [matchCC] at h
  split at h
  · split at h
    · simp at h
    · split at h
      · simp at h
      · split at h
        · simp at h
        · split at h
          · simp at h
          · split at h
            · simp only [Option.some.injEq] at h
              omega
            · simp at h
  · simp at h

theorem matchEmail_pos : ∀ prev l n, matchEmail prev l = some n → 1 ≤ n := by
  intro prev l n h
  simp only [matchEmail] at h
  split at h
  · split at h
    · simp at h
    · split at h
      · split at h
        · simp only [Option.some.injEq] at h
          omega
        · simp at h
      · simp at h
  · simp at h

/-- C9: redactPii is the sequential composition of the three global replaces
in source order, each of which replaces every match of its pattern in its
input (SSN first on the original text, then credit card, then email) with the
corresponding marker and passes every other character through unchanged. -/
theorem redactPii_spec (s : String) :
    ∃ t1 t2 : List Char,
      ReplSpec matchSSN "[SSN_REDACTED]".data none s.data t1
      ∧ ReplSpec matchCC "[CC_REDACTED]".data none t1 t2
      ∧ ReplSpec matchEmail "[EMAIL_REDACTED]".data none t2 (redactPii s).data := by
  refine ⟨replaceAllM matchSSN "[SSN_REDACTED]".data s.data,
          replaceAllM matchCC "[CC_REDACTED]".data (replaceAllM matchSSN "[SSN_REDACTED]".data s.data),
          ?_, ?_, ?_⟩
  · exact scanRepl_spec _ _ matchSSN_pos _ none _ le_rfl
  · exact scanRepl_spec _ _ matchCC_pos _ none _ le_rfl
  · exact scanRepl_spec _ _ matchEmail_pos _ none _ le_rfl

/- Concrete evaluations of the embedded redaction, cross-checked against the
JavaScript regexes. -/

theorem redactPii_example_ssn :
    redactPii "my ssn is 123-45-6789 ok" = "my ssn is [SSN_REDACTED] ok" := by decide

theorem redactPii_example_cc :
    redactPii "card 1234 5678-9012 3456!" = "card [CC_REDACTED]!" := by decide

theorem redactPii_example_email :
    redactPii "write to j.d+x@mail.example.com now" = "write to [EMAIL_REDACTED] now" := by decide

theorem redactPii_example_clean :
    redactPii "no pii here 12345 a-b" = "no pii here 12345 a-b" := by decide
